import Mathlib

/-!
Verification of the LVM browser's aggregation and cross-reference core
(`app.py`).  Every definition in this file is a shallow embedding of the
corresponding Python code; numeric strings are parsed into exact integers
or rationals, Python dictionaries become insertion-ordered association
lists, and silent exception handling becomes explicit `Option` matching.
-/

namespace LVM

/-- Whether `p` occurs as an initial run of `l` (`isPrefixB p l`).
(Own structural version so that concrete inputs evaluate in the kernel.) -/
def isPrefixB : List Char → List Char → Bool
  | [], _ => true
  | _ :: _, [] => false
  | a :: as, b :: bs => a = b && isPrefixB as bs

/-- Does `needle` occur contiguously inside `hay`? -/
def containsB (needle : List Char) : List Char → Bool
  | [] => isPrefixB needle []
  | c :: t => isPrefixB needle (c :: t) || containsB needle t

/-- Python `needle in hay` (contiguous substring test). -/
def pyContains (hay needle : String) : Bool :=
  containsB needle.data hay.data

/-- Python `str.startswith`. -/
def pyStartsWith (s p : String) : Bool :=
  isPrefixB p.data s.data

/-- Strip (Python `str.strip()`): drop leading and trailing whitespace. -/
def stripChars (l : List Char) : List Char :=
  ((((l.dropWhile Char.isWhitespace).reverse).dropWhile Char.isWhitespace)).reverse

/-- Python `str.strip()`. -/
def pyStrip (s : String) : String :=
  String.mk (stripChars s.data)

/-- Worker for Python whitespace `str.split()`: accumulate the current token
(reversed) and emit it at each whitespace run. -/
def splitWSGo : List Char → List Char → List (List Char)
  | [], acc => if acc = [] then [] else [acc.reverse]
  | c :: t, acc =>
      if c.isWhitespace then
        if acc = [] then splitWSGo t [] else acc.reverse :: splitWSGo t []
      else splitWSGo t (c :: acc)

/-- Python `str.split()` with no argument: split on runs of whitespace,
dropping empty tokens. -/
def pySplit (s : String) : List String :=
  (splitWSGo s.data []).map String.mk

/-- Split a character list at every occurrence of one separator character,
keeping empty pieces — Python `str.split(sep)` for a one-character `sep`. -/
def splitOnChar (sep : Char) : List Char → List (List Char)
  | [] => [[]]
  | c :: t =>
      if c = sep then [] :: splitOnChar sep t
      else
        match splitOnChar sep t with
        | [] => [[c]]
        | h :: r => (c :: h) :: r

/-- Python `str.split(sep)` for a one-character separator. -/
def pySplitOn (sep : Char) (s : String) : List String :=
  (splitOnChar sep s.data).map String.mk

/-- Index of the first occurrence of `needle` in `hay`, if any. -/
def findSub (needle : List Char) : List Char → Option Nat
  | [] => if isPrefixB needle [] then some 0 else none
  | c :: t =>
      if isPrefixB needle (c :: t) then some 0
      else (findSub needle t).map (· + 1)

/-- Python `s.split(pat)[1]` — the text between the first and (if present)
second occurrence of `pat`; callers only use it after checking `pat in s`. -/
def pySplitIdx1 (pat : String) (s : String) : String :=
  match findSub pat.data s.data with
  | none => ""
  | some i =>
      let rest := s.data.drop (i + pat.data.length)
      match findSub pat.data rest with
      | none => String.mk rest
      | some j => String.mk (rest.take j)

/-- Fuelled worker for Python `str.replace` (replace every non-overlapping
occurrence, left to right); fuel is the input length, enough for every step. -/
def replFuel (pat repl : List Char) : Nat → List Char → List Char
  | 0, l => l
  | _, [] => []
  | fuel + 1, c :: t =>
      if isPrefixB pat (c :: t) ∧ pat ≠ [] then
        repl ++ replFuel pat repl fuel (t.drop (pat.length - 1))
      else c :: replFuel pat repl fuel t

/-- Python `str.replace` (for the nonempty patterns the code uses). -/
def pyReplace (s pat repl : String) : String :=
  String.mk (replFuel pat.data repl.data s.data.length s.data)

/-- Python `str.find(c)`: index of the first occurrence of `c`, `-1` if absent. -/
def pyFind (s : String) (c : Char) : Int :=
  match s.data.findIdx? (· = c) with
  | some i => (i : Int)
  | none => -1

/-- Python slice `s[a:b]` for `0 ≤ a ≤ b` (the only shape used by the code). -/
def pySlice (s : String) (a b : Int) : String :=
  String.mk ((s.data.drop a.toNat).take (b.toNat - a.toNat))

/-- Python string join, `sep.join`. -/
def pyJoin (sep : String) : List String → String
  | [] => ""
  | [x] => x
  | x :: r => x ++ sep ++ pyJoin sep r

/-- Value of a Nat written by the decimal digit characters of `l`
(assumes every element is a digit). -/
def natOfDigits (l : List Char) : Nat :=
  l.foldl (fun n c => 10 * n + (c.toNat - 48)) 0

/-- Unsigned decimal literal `digits [. digits]` with at least implicit digits,
as accepted by Python `float`. -/
def parseUnsigned? (l : List Char) : Option ℚ :=
  let ip := l.takeWhile Char.isDigit
  let rest := l.dropWhile Char.isDigit
  match rest with
  | [] => if ip = [] then none else some ((natOfDigits ip : ℚ))
  | '.' :: fp =>
      if fp.all Char.isDigit ∧ (ip ≠ [] ∨ fp ≠ []) then
        some ((natOfDigits ip : ℚ) + (natOfDigits fp : ℚ) / (10 ^ fp.length))
      else none
  | _ => none

/-- Model of Python `float(s)` on the optionally signed plain decimal literals
that the data sources emit ( `pvs`/`vgs`/`lvs` byte counts, extent counts );
any other string is a parse failure, matching `ValueError`. -/
def parseFloat? (s : String) : Option ℚ :=
  match stripChars s.data with
  | [] => none
  | '+' :: rest => parseUnsigned? rest
  | '-' :: rest => (parseUnsigned? rest).map Neg.neg
  | l => parseUnsigned? l

/-- Truncation toward zero, as Python `int( · )` applied to a float. -/
def ratTrunc (q : ℚ) : Int :=
  Int.tdiv q.num (Int.ofNat q.den)

/-- Model of Python `int(float(s))`: parse, then truncate toward zero. -/
def parseNum? (s : String) : Option Int :=
  (parseFloat? s).map ratTrunc

/-- Model of Python `int(s)` on an optionally signed decimal digit string;
anything else (including a fractional literal) raises `ValueError`, i.e. `none`. -/
def parseInt? (s : String) : Option Int :=
  match stripChars s.data with
  | [] => none
  | '+' :: rest =>
      if rest ≠ [] ∧ rest.all Char.isDigit then some ((natOfDigits rest : Int)) else none
  | '-' :: rest =>
      if rest ≠ [] ∧ rest.all Char.isDigit then some (-(natOfDigits rest : Int)) else none
  | l => if l ≠ [] ∧ l.all Char.isDigit then some ((natOfDigits l : Int)) else none

/-- Round half to even, the rounding used by Python float formatting
(faithful for the exactly representable values the program produces). -/
def rhe (x : ℚ) : Int :=
  let f := ⌊x⌋
  let r := x - f
  if r < 1 / 2 then f else if 1 / 2 < r then f + 1 else if f % 2 = 0 then f else f + 1

/-- Render a natural number below 100 as exactly two digit characters. -/
def twoDigits (f : Nat) : String :=
  String.mk [Char.ofNat (48 + f / 10 % 10), Char.ofNat (48 + f % 10)]

/-- Python `f"{size:.2f}"`: exactly two decimal digits. -/
def fix2 (q : ℚ) : String :=
  let n := rhe (q * 100)
  (if n < 0 then "-" else "") ++ toString (n.natAbs / 100) ++ "." ++ twoDigits (n.natAbs % 100)

/-- The three alignment branches of `format_size`'s return statements. -/
def renderSize (size : ℚ) (unit : String) : String :=
  if size < 10 then "  " ++ fix2 size ++ " " ++ unit
  else if size < 100 then " " ++ fix2 size ++ " " ++ unit
  else fix2 size ++ " " ++ unit

/-- The `for unit in [...]` loop of `format_size`; `none` models Python falling
off the loop and returning `None` (unreachable with the real unit list). -/
def formatLoop (size : ℚ) : List String → Option String
  | [] => none
  | u :: rest =>
      if size < 1024 ∨ u = "TiB" then some (renderSize size u)
      else formatLoop (size / 1024) rest

def sizeUnits : List String := ["B", "KiB", "MiB", "GiB", "TiB"]

/-- A Python value as passed to `format_size`: an integer byte count, a string,
or `None`. -/
inductive PyVal where
  | pint (n : Int)
  | pstr (s : String)
  | pnone
deriving DecidableEq

/-- Model of Python `float(x)` for the three value shapes above; `none` models
`TypeError` / `ValueError`. -/
def toFloat? : PyVal → Option ℚ
  | .pint n => some ((n : ℚ))
  | .pstr s => parseFloat? s
  | .pnone => none

/-- The `format_size` function of `app.py` (lines 16-31). -/
def format_size (v : PyVal) : Option String :=
  match toFloat? v with
  | none => some "N/A"
  | some q => formatLoop q sizeUnits

/-- How a `format_size` result appears when later interpolated into a display
string: Python would print `None` for the unreachable fall-off case. -/
def pyStr (o : Option String) : String :=
  match o with
  | some s => s
  | none => "None"

/-- The `clean_device_info` function of `app.py` (lines 49-54). -/
def clean_device_info (text : String) : String :=
  pyReplace (pyReplace (pyReplace text "HARDDISK" "HDD") "(iscsi)" "")
    "Linux device-mapper (linear) (dm)" "LINUX Dev-map"

/-- Index of the unit at which the scaling loop stops: the first power of 1024
below which the value falls, capped at 4 (TiB). -/
def unitIndex (b : ℚ) : Nat :=
  if b < 1024 then 0
  else if b < 1024 ^ 2 then 1
  else if b < 1024 ^ 3 then 2
  else if b < 1024 ^ 4 then 3
  else 4

/-- Name of the unit at each index of `sizeUnits`. -/
def unitName : Nat → String
  | 0 => "B"
  | 1 => "KiB"
  | 2 => "MiB"
  | 3 => "GiB"
  | _ => "TiB"

theorem formatLoop_cons_lt {b : ℚ} (h : b < 1024) (u : String) (rest : List String) :
    formatLoop b (u :: rest) = some (renderSize b u) := by
  rw [formatLoop, if_pos (Or.inl h)]

theorem formatLoop_cons_ge {b : ℚ} (h : ¬ b < 1024) {u : String} (hu : u ≠ "TiB")
    (rest : List String) : formatLoop b (u :: rest) = formatLoop (b / 1024) rest := by
  rw [formatLoop, if_neg]
  rintro (h1 | h1)
  · exact h h1
  · exact hu h1

theorem formatLoop_tib (b : ℚ) (rest : List String) :
    formatLoop b ("TiB" :: rest) = some (renderSize b "TiB") := by
  rw [formatLoop, if_pos (Or.inr rfl)]

theorem div_step_lt_iff (b : ℚ) (p : ℚ) (hp : 0 < p) :
    b / p < 1024 ↔ b < 1024 * p := by
  rw [div_lt_iff₀ hp]

theorem formatLoop_closed (b : ℚ) :
    formatLoop b sizeUnits =
      some (renderSize (b / 1024 ^ unitIndex b) (unitName (unitIndex b))) := by
  have p1 : (0:ℚ) < 1024 := by norm_num
  rw [sizeUnits]
  by_cases h0 : b < 1024
  · rw [formatLoop_cons_lt h0]
    simp [unitIndex, h0, unitName]
  · rw [formatLoop_cons_ge h0 (by decide) _]
    by_cases h1 : b < 1024 ^ 2
    · have h1' : b / 1024 < 1024 := by
        rw [div_step_lt_iff b 1024 p1]
        calc b < 1024 ^ 2 := h1
        _ = 1024 * 1024 := by norm_num
      rw [formatLoop_cons_lt h1']
      simp [unitIndex, h0, h1, unitName, pow_one]
    · have h1' : ¬ b / 1024 < 1024 := by
        rw [div_step_lt_iff b 1024 p1]
        intro hc
        exact h1 (by calc b < 1024 * 1024 := hc
          _ = 1024 ^ 2 := by norm_num)
      rw [formatLoop_cons_ge h1' (by decide) _]
      by_cases h2 : b < 1024 ^ 3
      · have h2' : b / 1024 / 1024 < 1024 := by
          rw [div_div, div_step_lt_iff b (1024 * 1024) (by norm_num)]
          calc b < 1024 ^ 3 := h2
          _ = 1024 * (1024 * 1024) := by norm_num
        rw [formatLoop_cons_lt h2']
        have : b / 1024 / 1024 = b / 1024 ^ 2 := by
          rw [div_div]; norm_num
        rw [this]
        simp [unitIndex, h0, h1, h2, unitName]
      · have h2' : ¬ b / 1024 / 1024 < 1024 := by
          rw [div_div, div_step_lt_iff b (1024 * 1024) (by norm_num)]
          intro hc
          exact h2 (by calc b < 1024 * (1024 * 1024) := hc
            _ = 1024 ^ 3 := by norm_num)
        rw [formatLoop_cons_ge h2' (by decide) _]
        by_cases h3 : b < 1024 ^ 4
        · have h3' : b / 1024 / 1024 / 1024 < 1024 := by
            rw [div_div, div_div, div_step_lt_iff b (1024 * (1024 * 1024)) (by norm_num)]
            calc b < 1024 ^ 4 := h3
            _ = 1024 * (1024 * (1024 * 1024)) := by norm_num
          rw [formatLoop_cons_lt h3']
          have : b / 1024 / 1024 / 1024 = b / 1024 ^ 3 := by
            rw [div_div, div_div]; norm_num
          rw [this]
          simp [unitIndex, h0, h1, h2, h3, unitName]
        · have h3' : ¬ b / 1024 / 1024 / 1024 < 1024 := by
            rw [div_div, div_div, div_step_lt_iff b (1024 * (1024 * 1024)) (by norm_num)]
            intro hc
            exact h3 (by calc b < 1024 * (1024 * (1024 * 1024)) := hc
              _ = 1024 ^ 4 := by norm_num)
          rw [formatLoop_cons_ge h3' (by decide) _, formatLoop_tib]
          have : b / 1024 / 1024 / 1024 / 1024 = b / 1024 ^ 4 := by
            rw [div_div, div_div, div_div]; norm_num
          rw [this]
          simp [unitIndex, h0, h1, h2, h3, unitName]

theorem unitIndex_eq_four (q : ℚ) : unitIndex q = 4 ↔ 1024 ^ 4 ≤ q := by
  unfold unitIndex
  split_ifs with h0 h1 h2 h3
  · constructor
    · intro h; exact absurd h (by decide)
    · intro hle; exfalso
      have : (1024:ℚ) ≤ q := le_trans (by norm_num) hle
      linarith
  · constructor
    · intro h; exact absurd h (by decide)
    · intro hle; exfalso
      have : (1024:ℚ) ^ 2 ≤ q := le_trans (by norm_num) hle
      linarith
  · constructor
    · intro h; exact absurd h (by decide)
    · intro hle; exfalso
      have : (1024:ℚ) ^ 3 ≤ q := le_trans (by norm_num) hle
      linarith
  · constructor
    · intro h; exact absurd h (by decide)
    · intro hle; exact absurd hle (not_le.mpr h3)
  · simp [not_lt.mp h3]

theorem unitIndex_lt_spec (q : ℚ) (k : Nat) (hk : unitIndex q = k) (h4 : k < 4) :
    q / 1024 ^ k < 1024 := by
  unfold unitIndex at hk
  split_ifs at hk with h0 h1 h2 h3
  · subst hk; simpa using h0
  · subst hk
    rw [div_step_lt_iff q _ (by norm_num)]
    calc q < 1024 ^ 2 := h1
    _ = 1024 * 1024 ^ 1 := by norm_num
  · subst hk
    rw [div_step_lt_iff q _ (by norm_num)]
    calc q < 1024 ^ 3 := h2
    _ = 1024 * 1024 ^ 2 := by norm_num
  · subst hk
    rw [div_step_lt_iff q _ (by norm_num)]
    calc q < 1024 ^ 4 := h3
    _ = 1024 * 1024 ^ 3 := by norm_num
  · subst hk; exact absurd h4 (by decide)

theorem unitIndex_ge_spec (q : ℚ) (j : Nat) (hj : j < unitIndex q) :
    1024 ≤ q / 1024 ^ j := by
  have key : ∀ m : Nat, m < unitIndex q → 1024 ^ (m + 1) ≤ q := by
    intro m hm
    unfold unitIndex at hm
    split_ifs at hm with h0 h1 h2 h3
    · exact absurd hm (by omega)
    · interval_cases m
      · simpa using not_lt.mp h0
    · interval_cases m
      · simpa using not_lt.mp h0
      · exact not_lt.mp h1
    · interval_cases m
      · simpa using not_lt.mp h0
      · exact not_lt.mp h1
      · exact not_lt.mp h2
    · interval_cases m
      · simpa using not_lt.mp h0
      · exact not_lt.mp h1
      · exact not_lt.mp h2
      · exact not_lt.mp h3
  rw [le_div_iff₀ (pow_pos (by norm_num) j)]
  calc (1024:ℚ) * 1024 ^ j = 1024 ^ (j + 1) := by rw [pow_succ, mul_comm]
  _ ≤ q := key j hj

theorem twoDigits_length (f : Nat) : (twoDigits f).length = 2 := by
  simp [twoDigits, String.length]

theorem fs_zero : format_size (.pint 0) = some "  0.00 B" := by
  rw [format_size]
  simp only [toFloat?, Int.cast_zero]
  rw [formatLoop_closed]
  have hu : unitIndex (0:ℚ) = 0 := by
    rw [unitIndex, if_pos (by norm_num : (0:ℚ) < 1024)]
  rw [hu]
  have hdiv : (0:ℚ) / 1024 ^ 0 = 0 := by norm_num
  rw [hdiv]
  rw [show unitName 0 = "B" from rfl]
  rw [renderSize, if_pos (by norm_num : (0:ℚ) < 10)]
  have hf : fix2 0 = "0.00" := by
    rw [fix2]
    have h1 : rhe ((0:ℚ) * 100) = 0 := by
      rw [rhe]
      norm_num
    rw [h1]
    decide
  rw [hf]
  rfl

theorem fs_512MiB : format_size (.pint 536870912) = some "512.00 MiB" := by
  rw [format_size]
  simp only [toFloat?]
  rw [show ((536870912:Int):ℚ) = 536870912 by norm_num]
  rw [formatLoop_closed]
  have hu : unitIndex (536870912:ℚ) = 2 := by
    rw [unitIndex, if_neg (by norm_num), if_neg (by norm_num), if_pos (by norm_num)]
  rw [hu]
  rw [show (536870912:ℚ) / 1024 ^ 2 = 512 by norm_num]
  rw [show unitName 2 = "MiB" from rfl]
  rw [renderSize, if_neg (by norm_num), if_neg (by norm_num)]
  have hf : fix2 512 = "512.00" := by
    rw [fix2]
    have h1 : rhe ((512:ℚ) * 100) = 51200 := by
      rw [rhe]
      have hfl : ⌊(512:ℚ) * 100⌋ = 51200 := by
        rw [show ((512:ℚ) * 100) = ((51200:Int):ℚ) by norm_num, Int.floor_intCast]
      rw [hfl]
      norm_num
    rw [h1]
    decide
  rw [hf]
  rfl

/-- C7: `format_size` on any integer byte count `b` scales `b` by repeated
division by 1024 and renders (with exactly two decimal digits) at the first
unit whose scaled magnitude is below 1024, capped at TiB: the TiB unit is used
iff `b ≥ 1024^4`, a TiB value is never further divided, and `format_size 0`
is a Byte-unit string. -/
theorem c7_format_size_scaling (b : Int) :
    format_size (.pint b) =
        some (renderSize (((b:ℚ)) / 1024 ^ unitIndex ((b:ℚ))) (unitName (unitIndex ((b:ℚ)))))
    ∧ (unitIndex ((b:ℚ)) = 4 ↔ (1024:Int) ^ 4 ≤ b)
    ∧ (∀ k : Nat, unitIndex ((b:ℚ)) = k → k < 4 → ((b:ℚ)) / 1024 ^ k < 1024)
    ∧ (∀ j : Nat, j < unitIndex ((b:ℚ)) → 1024 ≤ ((b:ℚ)) / 1024 ^ j)
    ∧ (twoDigits ((rhe ((((b:ℚ)) / 1024 ^ unitIndex ((b:ℚ))) * 100)).natAbs % 100)).length = 2
    ∧ format_size (.pint 0) = some "  0.00 B" := by
  refine ⟨?_, ?_, ?_, ?_, ?_, ?_⟩
  · simp [format_size, toFloat?, formatLoop_closed]
  · rw [unitIndex_eq_four]
    constructor
    · intro h; exact_mod_cast h
    · intro h; exact_mod_cast h
  · exact fun k hk h4 => unitIndex_lt_spec _ k hk h4
  · exact fun j hj => unitIndex_ge_spec _ j hj
  · exact twoDigits_length _
  · exact fs_zero

/-- C7 witness: at the concrete byte count 1024^4 the theorem gives the TiB
unit. -/
theorem c7_format_size_scaling_witness :
    unitIndex (((1099511627776:Int):ℚ)) = 4 :=
  ((c7_format_size_scaling 1099511627776).2.1).mpr (by norm_num)

/-- C8: `format_size` is total and deterministic: every input yields a string,
non-numeric or missing input (`None`, `"abc"`) yields the literal `"N/A"`,
and equal inputs give equal outputs. -/
theorem c8_format_size_total (v : PyVal) :
    (∃ s, format_size v = some s)
    ∧ (toFloat? v = none → format_size v = some "N/A")
    ∧ format_size .pnone = some "N/A"
    ∧ format_size (.pstr "abc") = some "N/A"
    ∧ (∀ w : PyVal, w = v → format_size w = format_size v) := by
  refine ⟨?_, ?_, by decide, by decide, fun w hw => by rw [hw]⟩
  · unfold format_size
    match h : toFloat? v with
    | none => exact ⟨"N/A", rfl⟩
    | some q => exact ⟨_, formatLoop_closed q⟩
  · intro h; simp [format_size, h]

/-- C8 witness: the theorem applied to the string input `"12f"`, whose float
parse fails, yields `"N/A"`. -/
theorem c8_format_size_total_witness :
    format_size (.pstr "12f") = some "N/A" :=
  (c8_format_size_total (.pstr "12f")).2.1 (by decide)

/-! ### Association lists: insertion-ordered Python dictionaries -/

/-- Assignment `d[k] = v` on a Python dict: overwrite in place if the key exists,
else append. -/
def alSet {β : Type} (m : List (String × β)) (k : String) (v : β) :
    List (String × β) :=
  if m.any (fun p => p.1 == k) then m.map (fun p => if p.1 == k then (k, v) else p)
  else m ++ [(k, v)]

/-- Lookup `d.get(k)` on a Python dict. -/
def alGet? {β : Type} (m : List (String × β)) (k : String) : Option β :=
  (m.find? (fun p => p.1 == k)).map (·.2)

/-! ### Filesystem usage (`df`) parsing, `load_data` lines 184-211 -/

structure DfEnt where
  mount_point : String
  used : String
  avail : String
deriving DecidableEq

/-- The row loop of the `df` parse: rows with fewer than 6 tokens are
skipped; a non-integer used/avail field raises `ValueError`, which escapes
the loop to the surrounding handler — modelled by returning the map
accumulated so far. -/
def dfLoop (acc : List (String × DfEnt)) : List String → List (String × DfEnt)
  | [] => acc
  | line :: rest =>
      let parts := pySplit line
      if parts.length < 6 then dfLoop acc rest
      else
        match parseInt? (parts.getD 2 ""), parseInt? (parts.getD 3 "") with
        | some u, some a =>
            dfLoop (alSet acc (parts.getD 0 "")
              ⟨pyJoin " " (parts.drop 5),
               pyStr (format_size (.pint (u * 1024))),
               pyStr (format_size (.pint (a * 1024)))⟩) rest
        | _, _ => acc

/-- Whole `df` output: strip, split into lines, drop the header row. -/
def df_parse (output : String) : List (String × DfEnt) :=
  dfLoop [] ((pySplitOn '\n' (pyStrip output)).drop 1)

/-- A row that aborts the `df` parse: at least 6 tokens but a used- or
avail-blocks field that `int` rejects. -/
def dfBadRow (line : String) : Bool :=
  let parts := pySplit line
  decide (6 ≤ parts.length) &&
    ((parseInt? (parts.getD 2 "")).isNone || (parseInt? (parts.getD 3 "")).isNone)

theorem dfLoop_stop {bad : String} (hb : dfBadRow bad = true)
    (acc : List (String × DfEnt)) (post : List String) :
    dfLoop acc (bad :: post) = acc := by
  simp only [dfBadRow, Bool.and_eq_true, decide_eq_true_eq, Bool.or_eq_true,
    Option.isNone_iff_eq_none] at hb
  obtain ⟨hlen, hbadf⟩ := hb
  rw [dfLoop]
  rw [if_neg (by omega)]
  rcases h2 : parseInt? ((pySplit bad).getD 2 "") with _ | u
  · rfl
  · rcases h3 : parseInt? ((pySplit bad).getD 3 "") with _ | a
    · rfl
    · rcases hbadf with hb2 | hb3
      · rw [h2] at hb2; exact absurd hb2 (by simp)
      · rw [h3] at hb3; exact absurd hb3 (by simp)

/-- C10: in the `df` parser a row with fewer than 6 tokens is skipped on its
own, while the first row with at least 6 tokens and a non-integer used- or
avail-blocks field stops the whole parse: the resulting map is exactly the one
built from the rows before it, and it together with all later rows contributes
nothing. -/
theorem c10_df_stop (acc : List (String × DfEnt)) :
    (∀ line rest, (pySplit line).length < 6 → dfLoop acc (line :: rest) = dfLoop acc rest)
    ∧ (∀ pre bad post, (∀ l ∈ pre, dfBadRow l = false) → dfBadRow bad = true →
        dfLoop acc (pre ++ bad :: post) = dfLoop acc pre) := by
  constructor
  · intro line rest hshort
    rw [dfLoop, if_pos hshort]
  · intro pre
    induction pre generalizing acc with
    | nil =>
        intro bad post _ hbad
        simpa using dfLoop_stop hbad acc post
    | cons l pre ih =>
        intro bad post hgood hbad
        have hl : dfBadRow l = false := hgood l (by simp)
        by_cases hshort : (pySplit l).length < 6
        · rw [List.cons_append, dfLoop, if_pos hshort, dfLoop, if_pos hshort]
          exact ih acc bad post (fun x hx => hgood x (by simp [hx])) hbad
        · simp only [dfBadRow, Bool.and_eq_true, decide_eq_true_eq, Bool.or_eq_true,
            Option.isNone_iff_eq_none, Bool.and_eq_false_iff] at hl
          rcases hl with hl | hl
          · exact absurd hshort (by simpa using hl)
          · simp only [Bool.or_eq_false_iff, Option.isNone_eq_false_iff,
              Option.isSome_iff_exists] at hl
            obtain ⟨⟨u, hu⟩, ⟨a, ha⟩⟩ := hl
            rw [List.cons_append, dfLoop, if_neg hshort, hu, ha,
              dfLoop, if_neg hshort, hu, ha]
            exact ih _ bad post (fun x hx => hgood x (by simp [hx])) hbad

/-- C10 witness: a concrete report in which the third row has a malformed
used-blocks field; the short second row is skipped and everything from the
malformed row on is dropped. -/
theorem c10_df_stop_witness :
    dfLoop [] ["/dev/sda1 100 0 0 0% /", "short row",
        "/dev/sdb1 100 xx 0 0% /mnt", "/dev/sdc1 100 0 0 0% /data"] =
      dfLoop [] ["/dev/sda1 100 0 0 0% /", "short row"] :=
  (c10_df_stop []).2 ["/dev/sda1 100 0 0 0% /", "short row"]
    "/dev/sdb1 100 xx 0 0% /mnt" ["/dev/sdc1 100 0 0 0% /data"]
    (by decide) (by decide)

/-! ### Device-placement extraction, `draw_ui` lines 922-947 -/

/-- The conditional comma join used by the loop: append with a comma only when the accumulator is nonempty. -/
def commaAppend (a x : String) : String :=
  if a ≠ "" then a ++ ", " ++ x else x

/-- One iteration of the extraction loop over a comma-split token. -/
def tokenStep (acc : String × String) (tok : String) : String × String :=
  let t := pyStrip tok
  let sp := pyFind t '('
  let ep := pyFind t ')'
  if sp > 0 ∧ ep > sp then
    (commaAppend acc.1 (pySlice t 0 sp), commaAppend acc.2 (pySlice t (sp + 1) ep))
  else (commaAppend acc.1 t, acc.2)

/-- The whole extraction loop: returns `(clean_pvlist, pe_start_info)`. -/
def extractPE (pvlist : String) : String × String :=
  (pySplitOn ',' pvlist).foldl tokenStep ("", "")

/-- A trimmed token carrying a parenthesized start extent: a `(` at a
positive index with the first `)` after it. -/
def tokenHasParen (t : String) : Bool :=
  decide (pyFind t '(' > 0) && decide (pyFind t ')' > pyFind t '(')

/-- The text before the parenthesis (the clean device name), or the token
itself when it has no parenthesized suffix. -/
def cleanToken (t : String) : String :=
  if tokenHasParen t then pySlice t 0 (pyFind t '(') else t

/-- The text inside the parentheses (the start extent). -/
def parenContents (t : String) : String :=
  pySlice t (pyFind t '(' + 1) (pyFind t ')')

/-- The clean device names, one per comma-split token, in token order. -/
def cleanList (s : String) : List String :=
  ((pySplitOn ',' s).map pyStrip).map cleanToken

/-- The start extents of the tokens that have one, in token order. -/
def peList (s : String) : List String :=
  ((pySplitOn ',' s).map pyStrip).filterMap
    (fun t => if tokenHasParen t then some (parenContents t) else none)

theorem tokenStep_fold (toks : List String) : ∀ a b : String,
    toks.foldl tokenStep (a, b) =
      ((toks.map (fun t => cleanToken (pyStrip t))).foldl commaAppend a,
       (toks.filterMap (fun t =>
          if tokenHasParen (pyStrip t) then some (parenContents (pyStrip t)) else none)).foldl
         commaAppend b) := by
  induction toks with
  | nil => intro a b; rfl
  | cons t ts ih =>
      intro a b
      by_cases hp : tokenHasParen (pyStrip t) = true
      · have hp' : pyFind (pyStrip t) '(' > 0 ∧ pyFind (pyStrip t) ')' > pyFind (pyStrip t) '(' := by
          simpa [tokenHasParen, Bool.and_eq_true, decide_eq_true_eq] using hp
        simp only [List.foldl_cons, List.map_cons, List.filterMap_cons, hp, if_pos]
        rw [show tokenStep (a, b) t =
            (commaAppend a (cleanToken (pyStrip t)),
             commaAppend b (parenContents (pyStrip t))) from by
          simp [tokenStep, cleanToken, parenContents, hp, if_pos hp']]
        exact ih _ _
      · have hp' : ¬ (pyFind (pyStrip t) '(' > 0 ∧ pyFind (pyStrip t) ')' > pyFind (pyStrip t) '(') := by
          intro hc
          exact hp (by simp [tokenHasParen, Bool.and_eq_true, decide_eq_true_eq, hc.1, hc.2])
        simp only [List.foldl_cons, List.map_cons, List.filterMap_cons, hp, if_neg]
        rw [show tokenStep (a, b) t = (commaAppend a (pyStrip t), b) from by
          simp [tokenStep, if_neg hp']]
        rw [show cleanToken (pyStrip t) = pyStrip t from by
          simp [cleanToken, hp]]
        exact ih _ _

/-- C9: the extraction over a device-placement string processes the
comma-split, trimmed tokens in order: a token with a `(` at positive index
followed by a later `)` contributes its pre-parenthesis text to the clean
device list and the enclosed text to the extent-start list, any other token
passes through unchanged and contributes no extent start; on
`"/dev/sda1(10), /dev/sdb2(20)"` this yields the expected pair of lists. -/
theorem c9_extract_placement (s : String) :
    extractPE s = ((cleanList s).foldl commaAppend "", (peList s).foldl commaAppend "")
    ∧ extractPE "/dev/sda1(10), /dev/sdb2(20)" = ("/dev/sda1, /dev/sdb2", "10, 20")
    ∧ cleanList "/dev/sda1(10), /dev/sdb2(20)" = ["/dev/sda1", "/dev/sdb2"]
    ∧ peList "/dev/sda1(10), /dev/sdb2(20)" = ["10", "20"] := by
  refine ⟨?_, by decide, by decide, by decide⟩
  rw [extractPE, tokenStep_fold, cleanList, peList]
  rw [List.map_map, List.filterMap_map]
  rfl

/-! ### Integer rendering (Python `str` on an `int`) -/

def digitChar (n : Nat) : Char := Char.ofNat (48 + n)

/-- Decimal digits of `n`, most significant first (fuelled, structural). -/
def natCharsGo : Nat → Nat → List Char
  | 0, _ => []
  | fuel + 1, n =>
      if n < 10 then [digitChar n]
      else natCharsGo fuel (n / 10) ++ [digitChar (n % 10)]

/-- Python `str` on an `int`. -/
def pyIntStr (n : Int) : String :=
  match n with
  | .ofNat m => String.mk (natCharsGo (m + 1) m)
  | .negSucc m => String.mk ('-' :: natCharsGo (m + 2) (m + 1))

theorem natCharsGo_head (fuel n : Nat) (hf : 0 < fuel) :
    ∃ k cs, k < 10 ∧ natCharsGo fuel n = digitChar k :: cs := by
  induction fuel generalizing n with
  | zero => exact absurd hf (by omega)
  | succ fuel ih =>
      by_cases h : n < 10
      · exact ⟨n, [], h, by rw [natCharsGo, if_pos h]⟩
      · rw [natCharsGo, if_neg h]
        rcases fuel with _ | fuel
        · exact ⟨n % 10, [], by omega, by rw [natCharsGo]; rfl⟩
        · obtain ⟨k, cs, hk, hrec⟩ := ih (n / 10) (by omega)
          exact ⟨k, cs ++ [digitChar (n % 10)], hk, by rw [hrec]; rfl⟩

theorem pyIntStr_ne_NA (n : Int) : pyIntStr n ≠ "N/A" := by
  cases n with
  | ofNat m =>
      obtain ⟨k, cs, hk, hrec⟩ := natCharsGo_head (m + 1) m (by omega)
      rw [pyIntStr, hrec]
      intro hc
      have hdata : digitChar k :: cs = ['N', '/', 'A'] := congrArg String.data hc
      have hhead : digitChar k = 'N' := (List.cons_eq_cons.mp hdata).1
      interval_cases k <;> exact absurd hhead (by decide)
  | negSucc m =>
      rw [pyIntStr]
      intro hc
      have hdata : '-' :: natCharsGo (m + 2) (m + 1) = ['N', '/', 'A'] :=
        congrArg String.data hc
      exact absurd (List.cons_eq_cons.mp hdata).1 (by decide)

/-! ### Flattened device records and LV path resolution, `draw_ui` lines 571-594 -/

/-- A flattened device record, as produced by `load_data`'s `dfs`: the lsblk
fields of interest plus the usage and partition-table enrichments (`none`
models an absent dictionary key). -/
structure Dev where
  path : Option String := none
  name : Option String := none
  size : Option Int := none
  devtype : Option String := none
  mount_point : String := "N/A"
  used : String := "N/A"
  avail : String := "N/A"
  disk_model : Option String := none
  disklabel_type : Option String := none
  gpt_model_info : Option String := none
  gpt_part_table_type : Option String := none
  fdisk_id_info : Option String := none
  fdisk_type_info : Option String := none
  gpt_disk_flags_type : Option String := none
  gpt_fs_info : Option String := none
  gpt_df_flagsinfo : Option String := none
deriving DecidableEq

/-- The matching condition of the resolution loop (lines 580-590): a truthy
path satisfying any of the six disjuncts — two exact forms and four infix
forms. -/
def lvDevCond (vg name : String) (d : Dev) : Bool :=
  match d.path with
  | none => false
  | some p =>
      (p != "") &&
      ((p == "/dev/" ++ vg ++ "/" ++ name) ||
       (p == "/dev/mapper/" ++ vg ++ "-" ++ name) ||
       pyContains p ("/dev/" ++ vg ++ "/" ++ name) ||
       pyContains p ("/dev/mapper/" ++ vg ++ "-" ++ name) ||
       pyContains p ("/" ++ vg ++ "/" ++ name) ||
       pyContains p ("/" ++ vg ++ "-" ++ name))

/-- The resolution loop (lines 573-594): mount point, used and available of
the first matching record, `"N/A"` each when none matches. -/
def lvLookupMUA (vg name : String) : List Dev → String × String × String
  | [] => ("N/A", "N/A", "N/A")
  | d :: rest =>
      if lvDevCond vg name d then (d.mount_point, d.used, d.avail)
      else lvLookupMUA vg name rest

/-- Modelled from the spec wording of the claim, for comparison only: try the
two exact path conventions against the whole list first, and only if neither
matches any record fall back to an infix match. -/
def claimTwoPhase (vg name : String) (devs : List Dev) : String × String × String :=
  match devs.find? (fun d =>
      match d.path with
      | some p =>
          (p == "/dev/" ++ vg ++ "/" ++ name) || (p == "/dev/mapper/" ++ vg ++ "-" ++ name)
      | none => false) with
  | some d => (d.mount_point, d.used, d.avail)
  | none =>
      match devs.find? (fun d =>
          match d.path with
          | some p =>
              pyContains p ("/" ++ vg ++ "/" ++ name) || pyContains p ("/" ++ vg ++ "-" ++ name)
          | none => false) with
      | some d => (d.mount_point, d.used, d.avail)
      | none => ("N/A", "N/A", "N/A")

/-- C1 counterexample: with an infix-only record listed before an exact
`/dev/vg0/lv0` record, the code's single pass returns the earlier infix
record's fields, while the claim's exact-first order would return the exact
record's fields. -/
theorem c1_counterexample :
    lvLookupMUA "vg0" "lv0"
        [{ path := some "/data/vg0/lv0x", mount_point := "/mnt/infix", used := "u1", avail := "a1" },
         { path := some "/dev/vg0/lv0", mount_point := "/mnt/exact", used := "u2", avail := "a2" }] =
      ("/mnt/infix", "u1", "a1")
    ∧ claimTwoPhase "vg0" "lv0"
        [{ path := some "/data/vg0/lv0x", mount_point := "/mnt/infix", used := "u1", avail := "a1" },
         { path := some "/dev/vg0/lv0", mount_point := "/mnt/exact", used := "u2", avail := "a2" }] =
      ("/mnt/exact", "u2", "a2") := by
  constructor
  · decide
  · decide

theorem isPrefixB_iff (n : List Char) : ∀ l, isPrefixB n l = true ↔ ∃ post, l = n ++ post := by
  induction n with
  | nil => intro l; simp [isPrefixB]
  | cons a as ih =>
      intro l
      cases l with
      | nil => simp [isPrefixB]
      | cons b bs =>
          simp only [isPrefixB, Bool.and_eq_true, decide_eq_true_eq, ih bs,
            List.cons_append, List.cons_eq_cons]
          constructor
          · rintro ⟨rfl, post, rfl⟩; exact ⟨post, rfl, rfl⟩
          · rintro ⟨post, rfl, rfl⟩; exact ⟨rfl, post, rfl⟩

theorem containsB_iff (n : List Char) : ∀ h, containsB n h = true ↔ ∃ pre post, h = pre ++ n ++ post := by
  intro h
  induction h with
  | nil =>
      rw [containsB, isPrefixB_iff]
      constructor
      · rintro ⟨post, hp⟩; exact ⟨[], post, by simpa using hp⟩
      · rintro ⟨pre, post, hp⟩
        have h1 := List.append_eq_nil.mp (List.append_eq_nil.mp hp.symm).1
        have h2 := (List.append_eq_nil.mp hp.symm).2
        exact ⟨post, by simp [h1.2, h2]⟩
  | cons c t ih =>
      rw [containsB, Bool.or_eq_true, isPrefixB_iff, ih]
      constructor
      · rintro (⟨post, hp⟩ | ⟨pre, post, hp⟩)
        · exact ⟨[], post, by simpa using hp⟩
        · exact ⟨c :: pre, post, by simp [hp]⟩
      · rintro ⟨pre, post, hp⟩
        cases pre with
        | nil => exact Or.inl ⟨post, by simpa using hp⟩
        | cons x xs =>
            right
            refine ⟨xs, post, ?_⟩
            have := List.cons_eq_cons.mp (by simpa using hp)
            simpa using this.2

theorem pyContains_trans {p a b : String} (h1 : pyContains p a = true)
    (h2 : pyContains a b = true) : pyContains p b = true := by
  rw [pyContains, containsB_iff] at h1 h2 ⊢
  obtain ⟨x, y, hxy⟩ := h1
  obtain ⟨u, v, huv⟩ := h2
  exact ⟨x ++ u, v ++ y, by simp [hxy, huv]⟩

theorem string_append_data (a b : String) : (a ++ b).data = a.data ++ b.data := rfl

/-- C1 amended: the resolver makes a single pass and returns the fields of
the first record (in flattened order) whose nonempty path satisfies the
six-way condition, which collapses to an infix test for `/<vg>/<lv>` or
`/<vg>-<lv>`; exact matches on either convention are found because each
exact form contains the corresponding infix form, but an earlier infix-only
match wins over a later exact one; `"N/A"` fields when nothing matches. -/
theorem c1_resolution_single_pass (vg name : String) (devs : List Dev) :
    lvLookupMUA vg name devs =
      (match devs.find? (lvDevCond vg name) with
       | some d => (d.mount_point, d.used, d.avail)
       | none => ("N/A", "N/A", "N/A"))
    ∧ (∀ d : Dev, lvDevCond vg name d = true ↔
        ∃ p, d.path = some p ∧ p ≠ "" ∧
          (pyContains p ("/" ++ vg ++ "/" ++ name) = true ∨
           pyContains p ("/" ++ vg ++ "-" ++ name) = true)) := by
  constructor
  · induction devs with
    | nil => rfl
    | cons d rest ih =>
        rcases hc : lvDevCond vg name d with _ | _
        · rw [lvLookupMUA, if_neg (by simp [hc]), List.find?_cons_of_neg _ (by simp [hc]), ih]
        · rw [lvLookupMUA, if_pos (by simp [hc]), List.find?_cons_of_pos _ hc]
  · intro d
    constructor
    · intro hcond
      rcases hpath : d.path with _ | p
      · rw [lvDevCond, hpath] at hcond; exact absurd hcond (by simp)
      · rw [lvDevCond, hpath] at hcond
        simp only [Bool.and_eq_true, Bool.or_eq_true, bne_iff_ne, beq_iff_eq] at hcond
        obtain ⟨hne, hor⟩ := hcond
        refine ⟨p, rfl, hne, ?_⟩
        have hdev : ("/dev/" ++ vg ++ "/" ++ name : String) =
            "/dev" ++ ("/" ++ vg ++ "/" ++ name) ++ "" := by
          apply congrArg String.mk
          simp [string_append_data]
        have hmap : ("/dev/mapper/" ++ vg ++ "-" ++ name : String) =
            "/dev/mapper" ++ ("/" ++ vg ++ "-" ++ name) ++ "" := by
          apply congrArg String.mk
          simp [string_append_data]
        have hdevin : pyContains ("/dev/" ++ vg ++ "/" ++ name) ("/" ++ vg ++ "/" ++ name) = true := by
          rw [hdev]; rw [pyContains, containsB_iff]
          exact ⟨"/dev".data, [], by simp⟩
        have hmapin : pyContains ("/dev/mapper/" ++ vg ++ "-" ++ name) ("/" ++ vg ++ "-" ++ name) = true := by
          rw [hmap]; rw [pyContains, containsB_iff]
          exact ⟨"/dev/mapper".data, [], by simp⟩
        rcases hor with ((((h | h) | h) | h) | h) | h
        · left; subst h; exact hdevin
        · right; subst h; exact hmapin
        · left; exact pyContains_trans h hdevin
        · right; exact pyContains_trans h hmapin
        · left; exact h
        · right; exact h
    · rintro ⟨p, hpath, hne, hor⟩
      rw [lvDevCond, hpath]
      simp only [Bool.and_eq_true, Bool.or_eq_true, bne_iff_ne, beq_iff_eq]
      refine ⟨hne, ?_⟩
      rcases hor with h | h
      · exact Or.inl (Or.inr h)
      · exact Or.inr h

/-- C1 amended witness: an LV named `data-1` (a hyphenated name) resolves
through the mapper convention `/dev/mapper/vg0-data-1`. -/
theorem c1_resolution_single_pass_witness :
    lvLookupMUA "vg0" "data-1"
        [{ path := some "/dev/mapper/vg0-data-1", mount_point := "/mnt/d1", used := "u", avail := "a" }] =
      ("/mnt/d1", "u", "a") :=
  (c1_resolution_single_pass "vg0" "data-1"
      [{ path := some "/dev/mapper/vg0-data-1", mount_point := "/mnt/d1", used := "u", avail := "a" }]).1.trans
    (by decide)

/-! ### LV segment rows and the extent arithmetic, `draw_ui` lines 643-711 -/

/-- One `lvs` report row (all values arrive as strings; `none` models an
absent key). -/
structure LvRow where
  lv_name : Option String := none
  lv_size : Option String := none
  seg_size_pe : Option String := none
  seg_start_pe : Option String := none
  devices : Option String := none
deriving DecidableEq

/-- The four derived columns of one segment row. -/
structure RowCalc where
  le_start : String
  le_end : String
  pe_count : String
  pe_size : String
deriving DecidableEq

/-- Lines 643-661: PE count from `seg_size_pe`, PE size from the VG extent
size times the count, `"N/A"` at each failed conversion. -/
def peCalc (vg_pe_size : String) (lv : LvRow) : String × String :=
  let ssp := lv.seg_size_pe.getD "0"
  if ssp ≠ "" then
    match parseNum? ssp with
    | some c =>
        if vg_pe_size ≠ "N/A" then
          match parseNum? vg_pe_size with
          | some e => (pyIntStr c, pyStr (format_size (.pint (e * c))))
          | none => (pyIntStr c, "N/A")
        else (pyIntStr c, "N/A")
    | none => ("N/A", "N/A")
  else ("N/A", "N/A")

/-- Lines 669-685: LE start and end from the row's own metadata fields. -/
def leMeta (lv : LvRow) : String × String :=
  match lv.seg_start_pe with
  | some s0 =>
      if s0 ≠ "" then
        match parseNum? s0 with
        | some st =>
            let ssp := lv.seg_size_pe.getD "0"
            if ssp ≠ "" then
              match parseNum? ssp with
              | some c => (pyIntStr st, pyIntStr (st + c - 1))
              | none => (pyIntStr st, "N/A")
            else (pyIntStr st, "N/A")
        | none => ("N/A", "N/A")
      else ("N/A", "N/A")
  | none => ("N/A", "N/A")

/-- Lines 687-711: fallback scan of the comma-split device string for the
first token with a parenthesized start extent. -/
def fallbackLE (sspF : Option String) : List String → String × String
  | [] => ("N/A", "N/A")
  | tok :: rest =>
      let t := pyStrip tok
      let sp := pyFind t '('
      let ep := pyFind t ')'
      if sp > 0 ∧ ep > sp then
        let ls := pySlice t (sp + 1) ep
        let le :=
          match parseNum? ls with
          | some st =>
              let ssp := sspF.getD "0"
              if ssp ≠ "" then
                match parseNum? ssp with
                | some c => pyIntStr (st + c - 1)
                | none => "N/A"
              else "N/A"
          | none => "N/A"
        (ls, le)
      else fallbackLE sspF rest

/-- The whole per-row computation of lines 643-711. -/
def computeRow (vg_pe_size : String) (lv : LvRow) : RowCalc :=
  let pc := peCalc vg_pe_size lv
  let lm := leMeta lv
  let pvlist := lv.devices.getD ""
  let le :=
    if lm.1 = "N/A" ∧ pvlist ≠ "" then fallbackLE lv.seg_size_pe (pySplitOn ',' pvlist)
    else lm
  ⟨le.1, le.2, pc.1, pc.2⟩

theorem tokenHasParen_iff (t : String) :
    tokenHasParen t = true ↔ (pyFind t '(' > 0 ∧ pyFind t ')' > pyFind t '(') := by
  simp [tokenHasParen, Bool.and_eq_true, decide_eq_true_eq]

theorem parseNum?_some_ne_empty {s : String} {v : Int} (h : parseNum? s = some v) :
    s ≠ "" := by
  intro hc
  subst hc
  rw [show parseNum? "" = none from rfl] at h
  exact Option.noConfusion h

theorem fallbackLE_find (sspF : Option String) (toks : List String) :
    fallbackLE sspF toks =
      match (toks.map pyStrip).find? tokenHasParen with
      | some t =>
          (parenContents t,
           match parseNum? (parenContents t) with
           | some st =>
               if sspF.getD "0" ≠ "" then
                 match parseNum? (sspF.getD "0") with
                 | some c => pyIntStr (st + c - 1)
                 | none => "N/A"
               else "N/A"
           | none => "N/A")
      | none => ("N/A", "N/A") := by
  induction toks with
  | nil => rfl
  | cons tok toks ih =>
      rcases hp : tokenHasParen (pyStrip tok) with _ | _
      · have hp' : ¬ (pyFind (pyStrip tok) '(' > 0 ∧
            pyFind (pyStrip tok) ')' > pyFind (pyStrip tok) '(') := by
          rw [← tokenHasParen_iff, hp]; simp
        rw [fallbackLE, if_neg hp', List.map_cons, List.find?_cons_of_neg _ (by simp [hp]), ih]
      · have hp' : pyFind (pyStrip tok) '(' > 0 ∧
            pyFind (pyStrip tok) ')' > pyFind (pyStrip tok) '(' :=
          (tokenHasParen_iff _).mp hp
        rw [fallbackLE, if_pos hp', List.map_cons, List.find?_cons_of_pos _ hp]
        rfl

theorem computeRow_meta (lv : LvRow) (vgps : String) (sstr : String) (s : Int)
    (cstr : String) (c e : Int) (hs : lv.seg_start_pe = some sstr)
    (hps : parseNum? sstr = some s) (hc : lv.seg_size_pe = some cstr)
    (hpc : parseNum? cstr = some c) (hpe : parseNum? vgps = some e) :
    computeRow vgps lv =
      ⟨pyIntStr s, pyIntStr (s + c - 1), pyIntStr c, pyStr (format_size (.pint (e * c)))⟩ := by
  have hsne : sstr ≠ "" := parseNum?_some_ne_empty hps
  have hcne : cstr ≠ "" := parseNum?_some_ne_empty hpc
  have hvne : vgps ≠ "N/A" := by
    intro hv
    rw [hv, show parseNum? "N/A" = none from rfl] at hpe
    exact Option.noConfusion hpe
  have hpe' : peCalc vgps lv = (pyIntStr c, pyStr (format_size (.pint (e * c)))) := by
    simp [peCalc, hc, hcne, hpc, hvne, hpe]
  have hlm : leMeta lv = (pyIntStr s, pyIntStr (s + c - 1)) := by
    simp [leMeta, hs, hsne, hps, hc, hcne, hpc]
  simp [computeRow, hpe', hlm, pyIntStr_ne_NA s]

/-- C2: each segment row's displayed extent range starts at `seg_start_pe`
and ends at `seg_start_pe + seg_size_pe - 1` whenever both are present and
numeric; otherwise the start is the first parenthesized suffix among the
comma-split device tokens, with the same end formula; the byte size is the
VG extent size times the row's extent count formatted by `format_size`; and
the `seg_start_pe=0`, `seg_size_pe=128`, extent size 4194304 instance gives
range 0-127 and `"512.00 MiB"`. -/
theorem c2_extent_rows (lv : LvRow) (vgps : String) :
    (∀ sstr s cstr c e, lv.seg_start_pe = some sstr → parseNum? sstr = some s →
      lv.seg_size_pe = some cstr → parseNum? cstr = some c → parseNum? vgps = some e →
      computeRow vgps lv =
        ⟨pyIntStr s, pyIntStr (s + c - 1), pyIntStr c, pyStr (format_size (.pint (e * c)))⟩)
    ∧ (∀ pvl t st cstr c,
        (∀ x, lv.seg_start_pe = some x → x = "" ∨ parseNum? x = none) →
        lv.devices = some pvl → pvl ≠ "" →
        ((pySplitOn ',' pvl).map pyStrip).find? tokenHasParen = some t →
        parseNum? (parenContents t) = some st →
        lv.seg_size_pe = some cstr → parseNum? cstr = some c →
        (computeRow vgps lv).le_start = parenContents t ∧
        (computeRow vgps lv).le_end = pyIntStr (st + c - 1))
    ∧ computeRow "4194304"
        { lv_name := some "lv0", lv_size := some "536870912", seg_size_pe := some "128",
          seg_start_pe := some "0", devices := some "/dev/sda1(0)" } =
      ⟨"0", "127", "128", "512.00 MiB"⟩ := by
  refine ⟨fun sstr s cstr c e hs hps hc hpc hpe =>
    computeRow_meta lv vgps sstr s cstr c e hs hps hc hpc hpe, ?_, ?_⟩
  · intro pvl t st cstr c hstart hdev hpvl hfind hpst hc hpc
    have hcne : cstr ≠ "" := parseNum?_some_ne_empty hpc
    have hlm : leMeta lv = ("N/A", "N/A") := by
      rcases hs0 : lv.seg_start_pe with _ | x
      · rw [leMeta, hs0]
      · by_cases hxe : x = ""
        · simp [leMeta, hs0, hxe]
        · rcases hstart x hs0 with hx | hx
          · exact absurd hx hxe
          · simp [leMeta, hs0, hxe, hx]
    have hfb := fallbackLE_find (some cstr) (pySplitOn ',' pvl)
    rw [hfind] at hfb
    simp only [hpst, Option.getD_some] at hfb
    rw [if_pos hcne, hpc] at hfb
    have hfb2 : fallbackLE (some cstr) (pySplitOn ',' pvl) =
        (parenContents t, pyIntStr (st + c - 1)) := by
      rw [hfb]
    constructor
    · simp [computeRow, hlm, hdev, hpvl, hc, hfb2]
    · simp [computeRow, hlm, hdev, hpvl, hc, hfb2]
  · have hres := computeRow_meta
      { lv_name := some "lv0", lv_size := some "536870912", seg_size_pe := some "128",
        seg_start_pe := some "0", devices := some "/dev/sda1(0)" }
      "4194304" "0" 0 "128" 128 4194304 rfl (by decide) rfl (by decide) (by decide)
    rw [hres]
    rw [show ((0:Int) + 128 - 1) = 127 by norm_num,
      show ((4194304:Int) * 128) = 536870912 by norm_num, fs_512MiB]
    decide

/-- C2 witness: a row with no usable `seg_start_pe` falls back to the
parenthesized start extent 7 in its device string, ending at 7 + 128 - 1. -/
theorem c2_extent_rows_witness :
    (computeRow "4194304"
        { lv_name := some "lv1", seg_size_pe := some "128",
          devices := some "/dev/sdb2(7)" }).le_start = parenContents "/dev/sdb2(7)" ∧
    (computeRow "4194304"
        { lv_name := some "lv1", seg_size_pe := some "128",
          devices := some "/dev/sdb2(7)" }).le_end = pyIntStr (7 + 128 - 1) :=
  (c2_extent_rows
      { lv_name := some "lv1", seg_size_pe := some "128", devices := some "/dev/sdb2(7)" }
      "4194304").2.1 "/dev/sdb2(7)" "/dev/sdb2(7)" 7 "128" 128
    (fun x hx => by simp at hx) (by rfl) (by decide) (by decide) (by decide)
    (by rfl) (by decide)

/-! ### Partition-table parser results and the block-device tree flattener,
`load_data` lines 56-267 -/

structure FdiskPart where
  fdisk_id_info : String
  fdisk_type_info : String
deriving DecidableEq

structure FdiskDisk where
  disk_model : String
  disklabel_type : String
  partitions : List (String × FdiskPart)
deriving DecidableEq

structure PartedPart where
  gpt_disk_flags_type : String
  gpt_fs_info : String
  gpt_df_flagsinfo : String
deriving DecidableEq

structure PartedDisk where
  gpt_model_info : String
  gpt_part_table_type : String
  partitions : List (String × PartedPart)
deriving DecidableEq

/-- The lsblk fields of one raw tree node. -/
structure DevFields where
  path : Option String := none
  name : Option String := none
  size : Option Int := none
  devtype : Option String := none
deriving DecidableEq

/-- A raw nested block-device node as reported by lsblk. -/
inductive DevTree where
  | mk : DevFields → List DevTree → DevTree

/-- The per-snapshot parser results consulted while flattening. -/
structure Snap where
  df_info : List (String × DfEnt) := []
  fdisk_info : List (String × FdiskDisk) := []
  parted_info : List (String × PartedDisk) := []

/-- The identity key of a node, Python `dev.get('path') or dev.get('name', '')`
(an empty or missing path falls back to the name). -/
def devKey (f : DevFields) : String :=
  match f.path with
  | some p => if p = "" then f.name.getD "" else p
  | none => f.name.getD ""

/-- Identity key of a flattened record (same fallback rule). -/
def devKeyOf (d : Dev) : String :=
  match d.path with
  | some p => if p = "" then d.name.getD "" else p
  | none => d.name.getD ""

/-- The nine optional partition-table fields a node can acquire. -/
structure PTInfo where
  disk_model : Option String := none
  disklabel_type : Option String := none
  gpt_model_info : Option String := none
  gpt_part_table_type : Option String := none
  fdisk_id_info : Option String := none
  fdisk_type_info : Option String := none
  gpt_disk_flags_type : Option String := none
  gpt_fs_info : Option String := none
  gpt_df_flagsinfo : Option String := none
deriving DecidableEq

/-- Lines 230-260 of `dfs`: find the owning disk as the FIRST key of the
MBR-parser map (insertion order) that the path equals or extends; copy
disk-level fields when the path IS that disk, partition-level fields
otherwise; attach nothing when no MBR-parser disk matches.  Disks known only
to the GPT parser are never considered when choosing the owning disk. -/
def ptAttach (ctx : Snap) (path : String) : PTInfo :=
  if pyStartsWith path "/dev/" then
    match ctx.fdisk_info.find? (fun p => path == p.1 || pyStartsWith path p.1) with
    | some dp =>
        if path = dp.1 then
          { disk_model := (alGet? ctx.fdisk_info dp.1).map (·.disk_model),
            disklabel_type := (alGet? ctx.fdisk_info dp.1).map (·.disklabel_type),
            gpt_model_info := (alGet? ctx.parted_info dp.1).map (·.gpt_model_info),
            gpt_part_table_type := (alGet? ctx.parted_info dp.1).map (·.gpt_part_table_type) }
        else
          { fdisk_id_info :=
              ((alGet? ctx.fdisk_info dp.1).bind (fun fd => alGet? fd.partitions path)).map
                (·.fdisk_id_info),
            fdisk_type_info :=
              ((alGet? ctx.fdisk_info dp.1).bind (fun fd => alGet? fd.partitions path)).map
                (·.fdisk_type_info),
            gpt_disk_flags_type :=
              ((alGet? ctx.parted_info dp.1).bind (fun pd => alGet? pd.partitions path)).map
                (·.gpt_disk_flags_type),
            gpt_fs_info :=
              ((alGet? ctx.parted_info dp.1).bind (fun pd => alGet? pd.partitions path)).map
                (·.gpt_fs_info),
            gpt_df_flagsinfo :=
              ((alGet? ctx.parted_info dp.1).bind (fun pd => alGet? pd.partitions path)).map
                (·.gpt_df_flagsinfo) }
    | none => {}
  else {}

/-- Lines 219-260 of `dfs`: one appended record — usage fields from the df map
(defaulting to `"N/A"`), partition-table fields from `ptAttach`. -/
def enrich (ctx : Snap) (f : DevFields) (path : String) : Dev :=
  let u :=
    match alGet? ctx.df_info path with
    | some e => (e.mount_point, e.used, e.avail)
    | none => ("N/A", "N/A", "N/A")
  let pt := ptAttach ctx path
  { path := f.path, name := f.name, size := f.size, devtype := f.devtype,
    mount_point := u.1, used := u.2.1, avail := u.2.2,
    disk_model := pt.disk_model, disklabel_type := pt.disklabel_type,
    gpt_model_info := pt.gpt_model_info, gpt_part_table_type := pt.gpt_part_table_type,
    fdisk_id_info := pt.fdisk_id_info, fdisk_type_info := pt.fdisk_type_info,
    gpt_disk_flags_type := pt.gpt_disk_flags_type, gpt_fs_info := pt.gpt_fs_info,
    gpt_df_flagsinfo := pt.gpt_df_flagsinfo }

/-- The node step of `dfs` (lines 215-262): append the enriched record iff
the key is truthy and unseen. -/
def pushNode (ctx : Snap) (f : DevFields) (st : List Dev × List String) :
    List Dev × List String :=
  if (devKey f != "") && !(st.2.contains (devKey f)) then
    (st.1 ++ [enrich ctx f (devKey f)], devKey f :: st.2)
  else st

/-- Lines 213-267 of `dfs` over a forest, threading the `(devices, seen_paths)`
state: append a node iff its key is truthy and unseen, then always recurse
into the children before the remaining siblings. -/
def dfsList (ctx : Snap) : List DevTree → List Dev × List String → List Dev × List String
  | [], st => st
  | (.mk f cs) :: ts, st => dfsList ctx ts (dfsList ctx cs (pushNode ctx f st))
termination_by ts _ => sizeOf ts
decreasing_by
  all_goals simp_wf
  all_goals omega

/-- The flattened, deduplicated record list of a snapshot. -/
def flatten (ctx : Snap) (forest : List DevTree) : List Dev :=
  (dfsList ctx forest ([], [])).1

/-- The depth-first pre-order stream of identity keys (every node, children
always included). -/
def preKeysList : List DevTree → List String
  | [] => []
  | (.mk f cs) :: ts => devKey f :: (preKeysList cs ++ preKeysList ts)
termination_by ts => sizeOf ts
decreasing_by
  all_goals simp_wf
  all_goals omega

/-- First-occurrence deduplication of a key stream (dropping empty keys),
threading an output/seen pair. -/
def ddStep : List String → List String × List String → List String × List String
  | [], st => st
  | k :: ks, st =>
      if (k != "") && !(st.2.contains k) then ddStep ks (st.1 ++ [k], k :: st.2)
      else ddStep ks st

theorem ddStep_append (a b : List String) : ∀ st,
    ddStep (a ++ b) st = ddStep b (ddStep a st) := by
  induction a with
  | nil => intro st; rfl
  | cons k ks ih =>
      intro st
      rw [List.cons_append, ddStep, ddStep]
      by_cases hc : ((k != "") && !(st.2.contains k)) = true
      · rw [if_pos hc, if_pos hc, ih]
      · rw [if_neg hc, if_neg hc, ih]

theorem enrich_key (ctx : Snap) (f : DevFields) (p : String) :
    devKeyOf (enrich ctx f p) = devKey f := rfl

theorem ddStep_cons (k : String) (ks : List String) (o s : List String) :
    ddStep (k :: ks) (o, s) =
      if (k != "") && !(s.contains k) then ddStep ks (o ++ [k], k :: s)
      else ddStep ks (o, s) := rfl

theorem dfsList_spec (ctx : Snap) (ts : List DevTree) (st : List Dev × List String) :
    ((dfsList ctx ts st).1.map devKeyOf, (dfsList ctx ts st).2) =
      ddStep (preKeysList ts) (st.1.map devKeyOf, st.2) := by
  induction ts, st using dfsList.induct ctx with
  | case1 _ => simp [dfsList, preKeysList, ddStep]
  | case2 f cs ts st ih1 ih2 =>
      rw [dfsList, preKeysList, ih2, ih1, ddStep_cons]
      simp only [ddStep_append]
      by_cases hc : ((devKey f != "") && !(st.2.contains (devKey f))) = true
      · rw [if_pos hc]
        have hpair : ((pushNode ctx f st).1.map devKeyOf, (pushNode ctx f st).2) =
            (st.1.map devKeyOf ++ [devKey f], devKey f :: st.2) := by
          rw [pushNode, if_pos hc]
          simp [enrich_key]
        rw [hpair]
      · rw [if_neg hc]
        have hpair : ((pushNode ctx f st).1.map devKeyOf, (pushNode ctx f st).2) =
            (st.1.map devKeyOf, st.2) := by
          rw [pushNode, if_neg hc]
        rw [hpair]

theorem ddStep_mem (ks : List String) : ∀ out seen : List String,
    (∀ x : String, seen.contains x = true ↔ x ∈ out) →
    ∀ k, (k ∈ (ddStep ks (out, seen)).1 ↔ k ∈ out ∨ (k ≠ "" ∧ k ∈ ks)) := by
  induction ks with
  | nil => intro out seen _ k; simp [ddStep]
  | cons k0 ks ih =>
      intro out seen hinv k
      rw [ddStep_cons]
      by_cases hc : ((k0 != "") && !(seen.contains k0)) = true
      · rw [if_pos hc]
        have hcp : k0 ≠ "" ∧ seen.contains k0 = false := by
          simpa [bne_iff_ne] using hc
        have hinv2 : ∀ x : String, (k0 :: seen).contains x = true ↔ x ∈ out ++ [k0] := by
          intro x
          simp only [List.contains_cons, Bool.or_eq_true, beq_iff_eq, hinv x,
            List.mem_append, List.mem_singleton]
          tauto
        rw [ih (out ++ [k0]) (k0 :: seen) hinv2 k]
        by_cases hk : k = k0
        · subst hk
          simp [hcp.1]
        · simp [hk]
      · rw [if_neg hc]
        have hc' : k0 = "" ∨ seen.contains k0 = true := by
          by_contra hcon
          push_neg at hcon
          obtain ⟨h0, h1⟩ := hcon
          have h1' : seen.contains k0 = false := by simpa using h1
          exact hc (by rw [h1']; simp [bne_iff_ne, h0])
        rw [ih out seen hinv k]
        by_cases hk : k = k0
        · subst hk
          rcases hc' with hc' | hc'
          · simp [hc']
          · have hko : k ∈ out := (hinv k).mp hc'
            simp [hko]
        · simp [hk]

theorem ddStep_nodup (ks : List String) : ∀ out seen : List String,
    (∀ x : String, seen.contains x = true ↔ x ∈ out) → out.Nodup →
    (ddStep ks (out, seen)).1.Nodup := by
  induction ks with
  | nil => intro out seen _ hnd; simpa [ddStep] using hnd
  | cons k0 ks ih =>
      intro out seen hinv hnd
      rw [ddStep_cons]
      by_cases hc : ((k0 != "") && !(seen.contains k0)) = true
      · rw [if_pos hc]
        have hcp : k0 ≠ "" ∧ seen.contains k0 = false := by
          simpa [bne_iff_ne] using hc
        have hk0out : k0 ∉ out := by
          intro hmem
          have := (hinv k0).mpr hmem
          rw [hcp.2] at this
          exact Bool.noConfusion this
        have hinv2 : ∀ x : String, (k0 :: seen).contains x = true ↔ x ∈ out ++ [k0] := by
          intro x
          simp only [List.contains_cons, Bool.or_eq_true, beq_iff_eq, hinv x,
            List.mem_append, List.mem_singleton]
          tauto
        exact ih (out ++ [k0]) (k0 :: seen) hinv2
          (by simp [List.nodup_append, hnd, hk0out])
      · rw [if_neg hc]
        exact ih out seen hinv hnd

/-- C3: for every snapshot context and every nested device forest, the
flattener's output key sequence is exactly the first-occurrence
deduplication of the depth-first pre-order key stream (empty keys dropped):
each key appears at most once, the first occurrence wins, order is
preserved, children are visited whether or not the node itself was appended
(every nonempty descendant key is represented), and flattening the same
input twice gives lists of equal length and identical key order. -/
theorem c3_flatten_dedup (ctx : Snap) (ts : List DevTree) :
    (flatten ctx ts).map devKeyOf = (ddStep (preKeysList ts) ([], [])).1
    ∧ ((flatten ctx ts).map devKeyOf).Nodup
    ∧ (∀ k, k ∈ (flatten ctx ts).map devKeyOf ↔ (k ≠ "" ∧ k ∈ preKeysList ts))
    ∧ (∀ l1 l2 : List Dev, l1 = flatten ctx ts → l2 = flatten ctx ts →
        l1.length = l2.length ∧ l1.map devKeyOf = l2.map devKeyOf) := by
  have hspec := dfsList_spec ctx ts ([], [])
  have hfst : (flatten ctx ts).map devKeyOf = (ddStep (preKeysList ts) ([], [])).1 := by
    have := congrArg Prod.fst hspec
    simpa [flatten] using this
  refine ⟨hfst, ?_, ?_, ?_⟩
  · rw [hfst]
    exact ddStep_nodup (preKeysList ts) [] [] (by simp) (by simp)
  · intro k
    rw [hfst]
    rw [ddStep_mem (preKeysList ts) [] [] (by simp) k]
    simp
  · rintro l1 l2 rfl rfl
    exact ⟨rfl, rfl⟩

/-- A forest in which the path `/dev/sda` appears both as a root and again
as a child, and `/dev/sda1` both as a child and as a later root. -/
def exForestC3 : List DevTree :=
  [DevTree.mk { path := some "/dev/sda" }
      [DevTree.mk { path := some "/dev/sda1" } [],
       DevTree.mk { path := some "/dev/sda" } [DevTree.mk { name := some "dm-0" } []]],
   DevTree.mk { path := some "/dev/sda1" } []]

/-- C3 witness: on the concrete duplicate-bearing forest, the flattened key
list is the first-occurrence dedup of the pre-order stream, and flattening
the same input twice yields lists of equal length and key order. -/
theorem c3_flatten_dedup_witness :
    (flatten {} exForestC3).map devKeyOf = (ddStep (preKeysList exForestC3) ([], [])).1
    ∧ (flatten {} exForestC3).length = (flatten {} exForestC3).length
    ∧ (flatten {} exForestC3).map devKeyOf = (flatten {} exForestC3).map devKeyOf :=
  ⟨(c3_flatten_dedup {} exForestC3).1,
   ((c3_flatten_dedup {} exForestC3).2.2.2 (flatten {} exForestC3) (flatten {} exForestC3)
      rfl rfl).1,
   ((c3_flatten_dedup {} exForestC3).2.2.2 (flatten {} exForestC3) (flatten {} exForestC3)
      rfl rfl).2⟩

/-- The nine partition-table fields of a flattened record. -/
def ptOf (d : Dev) : PTInfo :=
  { disk_model := d.disk_model, disklabel_type := d.disklabel_type,
    gpt_model_info := d.gpt_model_info, gpt_part_table_type := d.gpt_part_table_type,
    fdisk_id_info := d.fdisk_id_info, fdisk_type_info := d.fdisk_type_info,
    gpt_disk_flags_type := d.gpt_disk_flags_type, gpt_fs_info := d.gpt_fs_info,
    gpt_df_flagsinfo := d.gpt_df_flagsinfo }

/-- Modelled from the spec wording of the claim, for comparison only: the
longest disk-path prefix match among the disks of BOTH parsers. -/
def claimLongestDisk (ctx : Snap) (path : String) : Option String :=
  ((ctx.fdisk_info.map (·.1)) ++ (ctx.parted_info.map (·.1))).foldl
    (fun best d =>
      if pyStartsWith path d then
        match best with
        | none => some d
        | some b => if b.length < d.length then some d else best
      else best) none

/-- Modelled from the spec wording of the claim, for comparison only:
attach disk-level fields when the node equals the longest-prefix disk,
partition-level fields otherwise, nothing when no parsed disk is a prefix. -/
def claimAttach (ctx : Snap) (path : String) : PTInfo :=
  if pyStartsWith path "/dev/" then
    match claimLongestDisk ctx path with
    | some dp =>
        if path = dp then
          { disk_model := (alGet? ctx.fdisk_info dp).map (·.disk_model),
            disklabel_type := (alGet? ctx.fdisk_info dp).map (·.disklabel_type),
            gpt_model_info := (alGet? ctx.parted_info dp).map (·.gpt_model_info),
            gpt_part_table_type := (alGet? ctx.parted_info dp).map (·.gpt_part_table_type) }
        else
          { fdisk_id_info :=
              ((alGet? ctx.fdisk_info dp).bind (fun fd => alGet? fd.partitions path)).map
                (·.fdisk_id_info),
            fdisk_type_info :=
              ((alGet? ctx.fdisk_info dp).bind (fun fd => alGet? fd.partitions path)).map
                (·.fdisk_type_info),
            gpt_disk_flags_type :=
              ((alGet? ctx.parted_info dp).bind (fun pd => alGet? pd.partitions path)).map
                (·.gpt_disk_flags_type),
            gpt_fs_info :=
              ((alGet? ctx.parted_info dp).bind (fun pd => alGet? pd.partitions path)).map
                (·.gpt_fs_info),
            gpt_df_flagsinfo :=
              ((alGet? ctx.parted_info dp).bind (fun pd => alGet? pd.partitions path)).map
                (·.gpt_df_flagsinfo) }
    | none => {}
  else {}

/-- The MBR parser reported disks `/dev/sda` and `/dev/sdab`, in this order. -/
def exSnapC5 : Snap :=
  { fdisk_info := [("/dev/sda", ⟨"MA", "dos", []⟩), ("/dev/sdab", ⟨"MB", "gpt", []⟩)] }

/-- C5 counterexample: for the flattened node `/dev/sdab` — itself a parsed
disk — the code matches the FIRST prefix `/dev/sda` and therefore attaches
no disk-level fields, while the claim's longest-prefix rule matches
`/dev/sdab` and would attach its model `"MB"`. -/
theorem c5_counterexample :
    (flatten exSnapC5 [DevTree.mk { path := some "/dev/sdab" } []]).map (·.disk_model) =
      [none]
    ∧ (claimAttach exSnapC5 "/dev/sdab").disk_model = some "MB" := by
  constructor
  · have h1 : flatten exSnapC5 [DevTree.mk { path := some "/dev/sdab" } []] =
        (pushNode exSnapC5 { path := some "/dev/sdab" } ([], [])).1 := by
      rw [flatten, dfsList, dfsList, dfsList]
    rw [h1]
    decide
  · decide

/-- C5 amended: the owning disk is the FIRST entry, in MBR-parser insertion
order, whose path the node's path equals or extends — not the longest prefix,
and disks known only to the GPT parser are never candidates; given that
choice, disk-level fields are copied when the node is that disk, the two
parsers' partition-level fields otherwise, and nothing when no MBR-parser
disk matches or the path is outside `/dev/`. -/
theorem c5_attach_first_match (ctx : Snap) (path : String) :
    (∀ f : DevFields, ptOf (enrich ctx f path) = ptAttach ctx path)
    ∧ (pyStartsWith path "/dev/" = false → ptAttach ctx path = {})
    ∧ (pyStartsWith path "/dev/" = true →
        ctx.fdisk_info.find? (fun p => path == p.1 || pyStartsWith path p.1) = none →
        ptAttach ctx path = {})
    ∧ (∀ dp, pyStartsWith path "/dev/" = true →
        ctx.fdisk_info.find? (fun p => path == p.1 || pyStartsWith path p.1) = some dp →
        path = dp.1 →
        ptAttach ctx path =
          { disk_model := (alGet? ctx.fdisk_info dp.1).map (·.disk_model),
            disklabel_type := (alGet? ctx.fdisk_info dp.1).map (·.disklabel_type),
            gpt_model_info := (alGet? ctx.parted_info dp.1).map (·.gpt_model_info),
            gpt_part_table_type := (alGet? ctx.parted_info dp.1).map (·.gpt_part_table_type) })
    ∧ (∀ dp, pyStartsWith path "/dev/" = true →
        ctx.fdisk_info.find? (fun p => path == p.1 || pyStartsWith path p.1) = some dp →
        path ≠ dp.1 →
        ptAttach ctx path =
          { fdisk_id_info :=
              ((alGet? ctx.fdisk_info dp.1).bind (fun fd => alGet? fd.partitions path)).map
                (·.fdisk_id_info),
            fdisk_type_info :=
              ((alGet? ctx.fdisk_info dp.1).bind (fun fd => alGet? fd.partitions path)).map
                (·.fdisk_type_info),
            gpt_disk_flags_type :=
              ((alGet? ctx.parted_info dp.1).bind (fun pd => alGet? pd.partitions path)).map
                (·.gpt_disk_flags_type),
            gpt_fs_info :=
              ((alGet? ctx.parted_info dp.1).bind (fun pd => alGet? pd.partitions path)).map
                (·.gpt_fs_info),
            gpt_df_flagsinfo :=
              ((alGet? ctx.parted_info dp.1).bind (fun pd => alGet? pd.partitions path)).map
                (·.gpt_df_flagsinfo) }) := by
  refine ⟨fun f => rfl, ?_, ?_, ?_, ?_⟩
  · intro h
    rw [ptAttach, if_neg (by simp [h])]
  · intro h hfind
    rw [ptAttach, if_pos h, hfind]
  · intro dp h hfind heq
    rw [ptAttach, if_pos h, hfind]
    exact if_pos heq
  · intro dp h hfind hne
    rw [ptAttach, if_pos h, hfind]
    exact if_neg hne

/-- C5 amended witness: at the counterexample snapshot the partition branch
fires for `/dev/sdab` (owning disk `/dev/sda`, no partition entry), leaving
every partition-table field unset. -/
theorem c5_attach_first_match_witness :
    ptAttach exSnapC5 "/dev/sdab" = {} :=
  ((c5_attach_first_match exSnapC5 "/dev/sdab").2.2.2.2
      ("/dev/sda", ⟨"MA", "dos", []⟩) (by decide) (by decide) (by decide)).trans
    (by decide)

/-! ### The MBR-style partition-table parser, `load_data` lines 68-118 -/

/-- The parser's line-loop state. -/
structure FdiskState where
  current_disk : Option String
  disk_label_type : Option String
  in_partition_table : Bool
  fdisk_info : List (String × FdiskDisk)
deriving DecidableEq

def fdiskInit : FdiskState := ⟨none, none, false, []⟩

/-- The header regex: under the `startswith("Disk /")` guard, the first
match captures from index 5 up to the first colon; no colon means no match. -/
def diskHeaderPath? (line : String) : Option String :=
  match line.data.findIdx? (· = ':') with
  | some i => some (String.mk ((line.data.drop 5).take (i - 5)))
  | none => none

/-- Update the record of disk `d` in place (the key is present whenever the
code reaches an update). -/
def updDisk (m : List (String × FdiskDisk)) (d : String) (g : FdiskDisk → FdiskDisk) :
    List (String × FdiskDisk) :=
  m.map (fun p => if p.1 == d then (d, g p.2) else p)

/-- One line of the fdisk parse loop (lines 76-118).  Note that a new
`Disk /` header resets the current disk and the in-table flag but NOT
`disk_label_type`, which persists from the previous disk. -/
def fdiskStep (st : FdiskState) (rawLine : String) : FdiskState :=
  let line := pyStrip rawLine
  if pyStartsWith line "Disk /" then
    match diskHeaderPath? line with
    | some p =>
        { st with current_disk := some p,
                  fdisk_info := alSet st.fdisk_info p ⟨"", "", []⟩,
                  in_partition_table := false }
    | none => st
  else if st.current_disk.isSome && pyContains line "Disk model:" then
    match st.current_disk with
    | some d =>
        { st with fdisk_info := updDisk st.fdisk_info d (fun fd =>
            { fd with disk_model :=
                clean_device_info (pyStrip (pySplitIdx1 "Disk model:" line)) }) }
    | none => st
  else if st.current_disk.isSome && pyContains line "Disklabel type:" then
    match st.current_disk with
    | some d =>
        let lt := pyStrip (pySplitIdx1 "Disklabel type:" line)
        let fi := updDisk st.fdisk_info d (fun fd => { fd with disklabel_type := lt })
        { st with fdisk_info := fi, disk_label_type := some lt }
    | none => st
  else if st.current_disk.isSome && pyContains line "Device" &&
      pyContains line "Start" && pyContains line "End" then
    { st with in_partition_table := true }
  else if st.current_disk.isSome && st.in_partition_table && (line != "") &&
      !(pyStartsWith line "Disk ") then
    match st.current_disk with
    | some d =>
        let parts := pySplit line
        if 2 ≤ parts.length ∧ pyStartsWith (parts.getD 0 "") d then
          if st.disk_label_type = some "dos" ∧ 7 ≤ parts.length then
            let ent : FdiskPart :=
              ⟨if 4 < parts.length then parts.getD 4 "" else "N/A",
               if 5 < parts.length then pyJoin " " (parts.drop 5) else "N/A"⟩
            let fi := updDisk st.fdisk_info d (fun fd =>
              { fd with partitions := alSet fd.partitions (parts.getD 0 "") ent })
            { st with fdisk_info := fi }
          else st
        else st
    | none => st
  else st

/-- The whole report. -/
def fdisk_parse (lines : List String) : List (String × FdiskDisk) :=
  (lines.foldl fdiskStep fdiskInit).fdisk_info

/-- A report in which disk `/dev/sda` declares a `dos` label and disk
`/dev/sdb` declares no label at all. -/
def c6lines : List String :=
  ["Disk /dev/sda: 100 GiB disk",
   "Disklabel type: dos",
   "Device Start End Sectors Size Id Type",
   "/dev/sda1 2048 4095 2048 1M 83 Linux",
   "Disk /dev/sdb: 200 GiB disk",
   "Device Start End Sectors Size Id Type",
   "/dev/sdb1 2048 4095 2048 1M 83 Linux"]

/-- C6 counterexample: the `/dev/sdb` header does not reset the label type
carried over from `/dev/sda` (still `dos` after line 5), so `/dev/sdb1` is
recorded even though `/dev/sdb`'s own label type was never declared (its
per-disk field stays empty) — refuting both the claimed reset and the
claimed iff. -/
theorem c6_counterexample :
    ((c6lines.take 5).foldl fdiskStep fdiskInit).disk_label_type = some "dos"
    ∧ (alGet? (fdisk_parse c6lines) "/dev/sdb").map (·.disklabel_type) = some ""
    ∧ (alGet? (fdisk_parse c6lines) "/dev/sdb").map
        (fun fd => alGet? fd.partitions "/dev/sdb1") =
      some (some ⟨"1M", "83 Linux"⟩) := by
  refine ⟨by decide, by decide, by decide⟩

/-- C6 amended: the label type in effect is the most recently seen
`Disklabel type:` value anywhere in the report — it persists across
`Disk /` headers (only the current disk and the in-table flag reset) — and,
on a line past the other branches, a partition row is recorded for the
current disk iff the table header has been seen since that disk's header,
the persisted label is `dos`, the row has at least 7 whitespace tokens whose
first is a path under the current disk, with fields the fifth token and the
sixth-onward tokens joined.  Both directions of the iff are covered: the
recording conjunct, and the non-recording conjuncts for a non-`dos` label,
fewer than 7 tokens, an unseen table header, an empty line, a `Disk `-prefixed
line, and a first token that is not under the current disk. -/
theorem c6_fdisk_partition_rows (st : FdiskState) (rawLine : String) (d : String)
    (hcd : st.current_disk = some d)
    (h1 : pyStartsWith (pyStrip rawLine) "Disk /" = false)
    (h2 : (st.current_disk.isSome && pyContains (pyStrip rawLine) "Disk model:") = false)
    (h3 : (st.current_disk.isSome && pyContains (pyStrip rawLine) "Disklabel type:") = false)
    (h4 : (st.current_disk.isSome && pyContains (pyStrip rawLine) "Device" &&
           pyContains (pyStrip rawLine) "Start" && pyContains (pyStrip rawLine) "End") = false) :
    (∀ l : String, pyContains (pyStrip l) "Disklabel type:" = false →
        (fdiskStep st l).disk_label_type = st.disk_label_type)
    ∧ ((st.in_partition_table = true ∧ pyStrip rawLine ≠ "" ∧
          pyStartsWith (pyStrip rawLine) "Disk " = false ∧
          2 ≤ (pySplit (pyStrip rawLine)).length ∧
          pyStartsWith ((pySplit (pyStrip rawLine)).getD 0 "") d = true ∧
          st.disk_label_type = some "dos" ∧ 7 ≤ (pySplit (pyStrip rawLine)).length) →
        (fdiskStep st rawLine).fdisk_info =
          updDisk st.fdisk_info d (fun fd =>
            FdiskDisk.mk fd.disk_model fd.disklabel_type
              (alSet fd.partitions ((pySplit (pyStrip rawLine)).getD 0 "")
                (FdiskPart.mk ((pySplit (pyStrip rawLine)).getD 4 "")
                  (pyJoin " " ((pySplit (pyStrip rawLine)).drop 5))))))
    ∧ ((st.disk_label_type ≠ some "dos" ∨ (pySplit (pyStrip rawLine)).length < 7) →
        (fdiskStep st rawLine).fdisk_info = st.fdisk_info)
    ∧ (st.in_partition_table = false → (fdiskStep st rawLine).fdisk_info = st.fdisk_info)
    ∧ (pyStrip rawLine = "" → (fdiskStep st rawLine).fdisk_info = st.fdisk_info)
    ∧ (pyStartsWith (pyStrip rawLine) "Disk " = true →
        (fdiskStep st rawLine).fdisk_info = st.fdisk_info)
    ∧ (pyStartsWith ((pySplit (pyStrip rawLine)).getD 0 "") d = false →
        (fdiskStep st rawLine).fdisk_info = st.fdisk_info) := by
  have hbne : ∀ b : Bool, b = false → ¬ b = true := by
    intro b hb hx
    rw [hb] at hx
    exact Bool.noConfusion hx
  refine ⟨?_, ?_, ?_, ?_, ?_, ?_, ?_⟩
  · intro l hl
    unfold fdiskStep
    dsimp only
    split
    · split
      · rfl
      · rfl
    · split
      · split
        · rfl
        · rfl
      · split
        · rename_i hc3
          simp [hl] at hc3
        · split
          · rfl
          · split
            · split
              · split
                · split
                  · rfl
                  · rfl
                · rfl
              · rfl
            · rfl
  · rintro ⟨hpt, hne, hds, hlen2, hsw, hdos, hlen7⟩
    unfold fdiskStep
    dsimp only
    rw [if_neg (hbne _ h1), if_neg (hbne _ h2), if_neg (hbne _ h3), if_neg (hbne _ h4)]
    have hc5 : (st.current_disk.isSome && st.in_partition_table &&
        (pyStrip rawLine != "") && !(pyStartsWith (pyStrip rawLine) "Disk ")) = true := by
      rw [hcd, hpt, hds]
      simp [bne_iff_ne, hne]
    rw [if_pos hc5, hcd]
    dsimp only
    rw [if_pos ⟨hlen2, hsw⟩, if_pos ⟨hdos, hlen7⟩]
    rw [if_pos (by omega : 4 < (pySplit (pyStrip rawLine)).length),
      if_pos (by omega : 5 < (pySplit (pyStrip rawLine)).length)]
  · intro hnot
    unfold fdiskStep
    dsimp only
    rw [if_neg (hbne _ h1), if_neg (hbne _ h2), if_neg (hbne _ h3), if_neg (hbne _ h4)]
    by_cases hc5 : (st.current_disk.isSome && st.in_partition_table &&
        (pyStrip rawLine != "") && !(pyStartsWith (pyStrip rawLine) "Disk ")) = true
    · rw [if_pos hc5, hcd]
      dsimp only
      by_cases hc6 : (2 ≤ (pySplit (pyStrip rawLine)).length ∧
          pyStartsWith ((pySplit (pyStrip rawLine)).getD 0 "") d = true)
      · rw [if_pos hc6]
        rw [if_neg ?hng]
        case hng =>
          rintro ⟨hdos, hlen⟩
          rcases hnot with hnot | hnot
          · exact hnot hdos
          · omega
      · rw [if_neg hc6]
    · rw [if_neg hc5]
  · intro hpt
    unfold fdiskStep
    dsimp only
    rw [if_neg (hbne _ h1), if_neg (hbne _ h2), if_neg (hbne _ h3), if_neg (hbne _ h4)]
    have hc5f : ¬ (st.current_disk.isSome && st.in_partition_table &&
        (pyStrip rawLine != "") && !(pyStartsWith (pyStrip rawLine) "Disk ")) = true := by
      intro hx
      rw [hpt] at hx
      simp at hx
    rw [if_neg hc5f]
  · intro hempty
    unfold fdiskStep
    dsimp only
    rw [if_neg (hbne _ h1), if_neg (hbne _ h2), if_neg (hbne _ h3), if_neg (hbne _ h4)]
    have hc5f : ¬ (st.current_disk.isSome && st.in_partition_table &&
        (pyStrip rawLine != "") && !(pyStartsWith (pyStrip rawLine) "Disk ")) = true := by
      intro hx
      rw [hempty] at hx
      simp at hx
    rw [if_neg hc5f]
  · intro hdiskpre
    unfold fdiskStep
    dsimp only
    rw [if_neg (hbne _ h1), if_neg (hbne _ h2), if_neg (hbne _ h3), if_neg (hbne _ h4)]
    have hc5f : ¬ (st.current_disk.isSome && st.in_partition_table &&
        (pyStrip rawLine != "") && !(pyStartsWith (pyStrip rawLine) "Disk ")) = true := by
      intro hx
      rw [hdiskpre] at hx
      simp at hx
    rw [if_neg hc5f]
  · intro hsw
    unfold fdiskStep
    dsimp only
    rw [if_neg (hbne _ h1), if_neg (hbne _ h2), if_neg (hbne _ h3), if_neg (hbne _ h4)]
    by_cases hc5 : (st.current_disk.isSome && st.in_partition_table &&
        (pyStrip rawLine != "") && !(pyStartsWith (pyStrip rawLine) "Disk ")) = true
    · rw [if_pos hc5, hcd]
      dsimp only
      rw [if_neg ?hng2]
      case hng2 =>
        rintro ⟨_, hx⟩
        rw [hsw] at hx
        exact Bool.noConfusion hx
    · rw [if_neg hc5]

/-- C6 amended witness: inside the tabular section of disk `/dev/sdc`, with
the persisted label `dos`, the 7-token row `/dev/sdc1 ...` is recorded with
fields `1M` and `83 Linux`. -/
theorem c6_fdisk_partition_rows_witness :
    (fdiskStep ⟨some "/dev/sdc", some "dos", true, [("/dev/sdc", ⟨"", "dos", []⟩)]⟩
        "/dev/sdc1 2048 4095 2048 1M 83 Linux").fdisk_info =
      [("/dev/sdc", ⟨"", "dos", [("/dev/sdc1", ⟨"1M", "83 Linux"⟩)]⟩)] :=
  ((c6_fdisk_partition_rows
      ⟨some "/dev/sdc", some "dos", true, [("/dev/sdc", ⟨"", "dos", []⟩)]⟩
      "/dev/sdc1 2048 4095 2048 1M 83 Linux" "/dev/sdc" rfl (by decide) (by decide)
      (by decide) (by decide)).2.1
    ⟨rfl, by decide, by decide, by decide, by decide, rfl, by decide⟩).trans (by decide)

/-! ### Main-panel branch selection, `draw_ui` lines 338-969 -/

/-- One `pvs` report row. -/
structure PV where
  pv_name : Option String := none
  pv_size : Option String := none
  pv_free : Option String := none
  vg_name : Option String := none
  pv_fmt : Option String := none
deriving DecidableEq

/-- Which of the three mutually exclusive main-panel outcomes `draw_ui`
takes for the selected record.  `lvInfo` (line 346, `type == 'lvm'`) shows
the LV details — and, through the misindented `else` of
`if not info_displayed:` at lines 968-969, ALSO writes the
`No LVM info for {path}` line; `vgInfo` (line 405, path found in `pvs_map`)
shows the VG details; `noLvmSilent` (path absent from `pvs_map`) writes
nothing at all to the main panel — neither message site (lines 769-774 and
968-969) is reachable there. -/
inductive MainBranch where
  | lvInfo
  | vgInfo
  | noLvmSilent
deriving DecidableEq

/-- The branch structure of `draw_ui` lines 338-405 (`pvs_map.get(None)` is
`None`, so a record without a path also falls through silently). -/
def selectMainBranch (dev : Dev) (pvs_map : List (String × PV)) : MainBranch :=
  if dev.devtype = some "lvm" then .lvInfo
  else
    match dev.path with
    | some p => if (alGet? pvs_map p).isSome then .vgInfo else .noLvmSilent
    | none => .noLvmSilent

/-- Whether the branch writes the `No LVM info for {path}` message
independently of the window layout: the `lvInfo` branch always does (the
misindented `else` at line 968), the `noLvmSilent` branch never does, and in
the `vgInfo` branch it depends on the layout (the for-else at line 769), so
no layout-independent answer exists. -/
def emitsNoInfoMessage : MainBranch → Option Bool
  | .lvInfo => some true
  | .vgInfo => none
  | .noLvmSilent => some false

/-- C4: evaluating the selection logic at a selected disk record whose path
is absent from every LVM map (all three maps empty): the code takes the
silent fall-through branch and never writes the `no PV/VG information`
message — the claimed message appears instead exactly when LV info was
displayed — though it indeed raises no exception (the embedding is total
and the lookup merely returns `none`). -/
theorem c4_absent_path_silent :
    selectMainBranch { path := some "/dev/sda", name := some "sda", devtype := some "disk" } []
        = .noLvmSilent
    ∧ emitsNoInfoMessage .noLvmSilent = some false
    ∧ emitsNoInfoMessage .lvInfo = some true := by
  refine ⟨by decide, by decide, by decide⟩

end LVM
